import Mathlib

/-!
Verification of the crude-futures weekly backtesting engine.

The development shallowly embeds the Python source:
* `Price_Data_Analysis.process_price_data` step 9 (forward/trailing returns),
* `Main.merge_dataframes` (three-feed merge and total score),
* `Backtesting.extract_rows_by_score`, `compute_sharpe_ratio` and
  `backtest_scores` (cohort extraction, Sharpe evaluation, summary pivot).

Prices and scores are modelled as rationals; Sharpe arithmetic, which needs
square roots and real exponents, is modelled over the reals.  A pandas `NaN`
cell is modelled as `Option.none`.
-/

/-! ### Return series (Price_Data_Analysis.py, step 9)

The weekly series is ordered from most recent to oldest (step 8 sorts by
`Exchange Date` descending).  `closes` lists the `Close` column in that
order, so position `t - k` is `k` weeks later in calendar time.
-/

/-- `df['Close'].shift(week)` on the newest-first series: the shifted series
holds at position `t` the value from position `t - k`, and `NaN` for the
first `k` positions. -/
def shiftClose (closes : List ℚ) (k t : ℕ) : Option ℚ :=
  if k ≤ t then closes[t - k]? else none

/-- `df[f'{week}_Week_Long_Return'] = ((future_close - df['Close']) / df['Close']) * 100`
where `future_close = df['Close'].shift(week)`; `NaN` (here `none`)
propagates through the arithmetic. -/
def long_return (closes : List ℚ) (h t : ℕ) : Option ℚ :=
  (closes[t]?).bind fun c => (shiftClose closes h t).map fun fc => (fc - c) / c * 100

/-- `df['Close'].pct_change(periods=week)`: at position `t` the relative
change from position `t - k`, `NaN` for the first `k` positions.  (The
`Close` column holds no `NaN` after the upstream grouping, so the default
fill of the input series is a no-op.) -/
def pct_change (closes : List ℚ) (k t : ℕ) : Option ℚ :=
  if k ≤ t then
    (closes[t]?).bind fun c => (closes[t - k]?).map fun prev => (c - prev) / prev
  else none

/-- `df[f'{week}_Week_Short_Return'] = df['Close'].pct_change(periods=week) * 100`. -/
def short_return (closes : List ℚ) (h t : ℕ) : Option ℚ :=
  (pct_change closes h t).map (· * 100)

/-! ### Merge of the three feeds (Main.py, merge_dataframes)

The price feed carries the `(Year, Week_Number)` key and the `Price Score`
column; the COT (positioning) feed carries `Bullish_Bearish_Score` and
`Delta_Score`; the inventory (storage) feed carries
`Absolute Storage Score` and `Delta Inventory Score`.  Whether the price
feed actually has its `Price Score` column is tracked by a frame-level
flag, mirroring the `'Price Score' not in merged_df.columns` check (the two
factor feeds never provide a column of that name).  The column reordering
of step 4 only permutes columns and is not represented in the typed rows.
-/

structure PriceRow where
  year : ℤ
  week : ℕ
  price_score : ℚ
deriving DecidableEq

/-- The processed price feed; `hasPriceScore` records whether the
`Price Score` column is present. -/
structure PriceFrame where
  hasPriceScore : Bool
  rows : List PriceRow
deriving DecidableEq

/-- One weekly record of a factor feed (COT or inventory), carrying that
feed's two score columns. -/
structure FactorRow where
  year : ℤ
  week : ℕ
  score1 : ℚ
  score2 : ℚ
deriving DecidableEq

def factorKey (r : FactorRow) : ℤ × ℕ := (r.year, r.week)

def priceKey (r : PriceRow) : ℤ × ℕ := (r.year, r.week)

def meanQ (l : List ℚ) : ℚ := l.sum / l.length

/-- Insertion into a key list sorted lexicographically by (year, week). -/
def insertKey (k : ℤ × ℕ) : List (ℤ × ℕ) → List (ℤ × ℕ)
  | [] => [k]
  | k2 :: rest =>
    if k.1 < k2.1 ∨ (k.1 = k2.1 ∧ k.2 ≤ k2.2) then k :: k2 :: rest
    else k2 :: insertKey k rest

def sortKeys (l : List (ℤ × ℕ)) : List (ℤ × ℕ) := l.foldr insertKey []

/-- `df.groupby(['Year', 'Week_Number'], as_index=False).mean()`: one row
per distinct key (sorted), each score column averaged over the group. -/
def groupby_mean (rows : List FactorRow) : List FactorRow :=
  (sortKeys (rows.map factorKey).dedup).map fun k =>
    let grp := rows.filter fun r => decide (factorKey r = k)
    ⟨k.1, k.2, meanQ (grp.map FactorRow.score1), meanQ (grp.map FactorRow.score2)⟩

/-- Steps 1 and 2 of `merge_dataframes`: aggregate by mean only when the
feed has duplicated `(Year, Week_Number)` keys. -/
def ensure_unique (rows : List FactorRow) : List FactorRow :=
  if (rows.map factorKey).Nodup then rows else groupby_mean rows

/-- A merged row before the `fillna`: cells from a factor feed are absent
(`NaN`, i.e. `none`) when the feed has no record for the week. -/
structure MergedRow where
  year : ℤ
  week : ℕ
  price_score : ℚ
  bullish_bearish : Option ℚ
  delta_score : Option ℚ
  absolute_storage : Option ℚ
  delta_inventory : Option ℚ
deriving DecidableEq

/-- Step 3 of `merge_dataframes`: two successive left joins onto the price
frame.  After `ensure_unique` each factor key is unique, so pandas left
merge contributes at most one matching record per price row, modelled by
`find?`. -/
def left_merge (price : List PriceRow) (inventory cot : List FactorRow) :
    List MergedRow :=
  price.map fun p =>
    let inv := inventory.find? fun r => decide (factorKey r = priceKey p)
    let c := cot.find? fun r => decide (factorKey r = priceKey p)
    { year := p.year, week := p.week, price_score := p.price_score
      bullish_bearish := c.map FactorRow.score1
      delta_score := c.map FactorRow.score2
      absolute_storage := inv.map FactorRow.score1
      delta_inventory := inv.map FactorRow.score2 }

/-- A merged row after `fillna(0)` on the five score columns and the
`Total_Score` computation. -/
structure ScoredRow where
  year : ℤ
  week : ℕ
  price_score : ℚ
  bullish_bearish : ℚ
  delta_score : ℚ
  absolute_storage : ℚ
  delta_inventory : ℚ
  total_score : ℚ
deriving DecidableEq

/-- Steps 5 of `merge_dataframes`: `fillna(0)` on the five score columns
(`Price Score` is never `NaN` there) and
`Total_Score = merged_df[score_columns_to_sum].sum(axis=1)` over exactly
those five columns. -/
def fillna_and_total (m : MergedRow) : ScoredRow :=
  let bb := m.bullish_bearish.getD 0
  let ds := m.delta_score.getD 0
  let ab := m.absolute_storage.getD 0
  let di := m.delta_inventory.getD 0
  { year := m.year, week := m.week, price_score := m.price_score
    bullish_bearish := bb, delta_score := ds
    absolute_storage := ab, delta_inventory := di
    total_score := m.price_score + bb + ds + ab + di }

/-- `Main.merge_dataframes`: dedup the factor feeds, left join them onto
the price feed, check for the `Price Score` column (raising `ValueError`
when absent), fill missing scores with 0 and compute `Total_Score`. -/
def merge_dataframes (price : PriceFrame) (inventory cot : List FactorRow) :
    Except String (List ScoredRow) :=
  let inventory2 := ensure_unique inventory
  let cot2 := ensure_unique cot
  let merged := left_merge price.rows inventory2 cot2
  if price.hasPriceScore then Except.ok (merged.map fillna_and_total)
  else Except.error "Price Score column not found in Price DataFrame"

/-! ### The merged frame as seen by Backtesting.py

Only the columns the backtester touches are modelled: `Year`,
`Total_Score`, and the per-horizon return columns.  Which return columns
exist is frame-level data (`longCols` / `shortCols`); the per-row cell of
an existing column may still be `NaN` (`none`). -/

structure BRow where
  year : ℤ
  totalScore : ℚ
  longRet : List (ℕ × Option ℚ)
  shortRet : List (ℕ × Option ℚ)
deriving DecidableEq

structure BFrame where
  hasTotalScore : Bool
  longCols : List ℕ
  shortCols : List ℕ
  rows : List BRow
deriving DecidableEq

/-- Cell of the `{p}_Week_Long_Return` column for a row. -/
def getLong (r : BRow) (p : ℕ) : Option ℚ := (r.longRet.lookup p).getD none

/-- Cell of the `{p}_Week_Short_Return` column for a row. -/
def getShort (r : BRow) (p : ℕ) : Option ℚ := (r.shortRet.lookup p).getD none

/-- `reset_index(drop=True)` renumbers the positional index and keeps the
rows; the model has no separate index object. -/
def reset_index (rows : List BRow) : List BRow := rows

/-- `Backtesting.extract_rows_by_score`: raises `ValueError` when the
`Total_Score` column is absent, otherwise keeps exactly the rows with
`|Total_Score - score| <= tolerance` (via `np.abs`), `.copy()`-ing the
selection and resetting its index. -/
def extract_rows_by_score (merged_df : BFrame) (score tolerance : ℚ) :
    Except String BFrame :=
  if merged_df.hasTotalScore then
    Except.ok { merged_df with
      rows := reset_index (merged_df.rows.filter fun r =>
        decide (|r.totalScore - score| ≤ tolerance)) }
  else Except.error "Total_Score column missing"

/-- The default of `extract_rows_by_score`: `tolerance=1e-5`. -/
def default_tolerance : ℚ := 1 / 100000

/-- Explicit state passing for `extract_rows_by_score`: the pair is
(result, merged DataFrame after the call).  The function filters into a
`.copy()` and the only in-place operation (`reset_index(..., inplace=True)`)
acts on that copy, so the caller's frame comes back unchanged. -/
def extract_rows_by_score_state (merged_df : BFrame) (score tolerance : ℚ) :
    Except String BFrame × BFrame :=
  (extract_rows_by_score merged_df score tolerance, merged_df)

/-! ### Sharpe ratio (Backtesting.py, compute_sharpe_ratio)

Return values are reals here.  pandas `Series.mean()` of an empty series
is `NaN`, and `Series.std()` (default `ddof=1`) is `NaN` on an empty or
single-element series; `NaN == 0` is false, so the guard falls through and
the `NaN` propagates into the returned ratio.  A `NaN` result is modelled
as `none`, so the whole computation collapses to `none` when fewer than
two observations are given. -/

noncomputable def compute_sharpe_ratio (returns : List ℝ)
    (investment_period_weeks : ℕ) (annual_risk_free_rate : ℝ) : Option ℝ :=
  let returns_decimal := returns.map fun x => x / 100
  let risk_free_rate_period :=
    (1 + annual_risk_free_rate) ^ ((investment_period_weeks : ℝ) / 52) - 1
  let excess_returns := returns_decimal.map fun x => x - risk_free_rate_period
  if returns.length < 2 then none
  else
    let mean_excess := excess_returns.sum / (returns.length : ℝ)
    let std_excess := Real.sqrt
      ((excess_returns.map fun x => (x - mean_excess) ^ 2).sum /
        ((returns.length : ℝ) - 1))
    if std_excess = 0 then none
    else some (mean_excess / std_excess *
      Real.sqrt (52 / (investment_period_weeks : ℝ)))

/-! Specification-side definitions of the Sharpe computation, written from
the words of the design document (compounded period rate, sample mean,
Bessel-corrected sample standard deviation, annualization factor), for
comparison with the code-side `compute_sharpe_ratio`. -/

noncomputable def rfPeriodSpec (r : ℝ) (h : ℕ) : ℝ := (1 + r) ^ ((h : ℝ) / 52) - 1

noncomputable def excessSpec (returns : List ℝ) (h : ℕ) (r : ℝ) : List ℝ :=
  returns.map fun x => x / 100 - rfPeriodSpec r h

noncomputable def meanSpec (l : List ℝ) : ℝ := l.sum / (l.length : ℝ)

noncomputable def stdSpec (l : List ℝ) : ℝ :=
  Real.sqrt ((l.map fun x => (x - meanSpec l) ^ 2).sum / ((l.length : ℝ) - 1))

noncomputable def sharpeSpec (returns : List ℝ) (h : ℕ) (r : ℝ) : ℝ :=
  meanSpec (excessSpec returns h r) / stdSpec (excessSpec returns h r) *
    Real.sqrt (52 / (h : ℝ))

/-! ### Summary accumulation and pivot (Backtesting.py, backtest_scores) -/

/-- One element of the `summary_data` list: the dict
`{'Total_Score': ..., 'Investment_Period_Weeks': ..., 'Return_Type': ...,
'Sharpe_Ratio': ...}`; `isLong = true` stands for `'Long'`. -/
structure SummaryEntry where
  total_score : ℚ
  period : ℕ
  isLong : Bool
  sharpe : Option ℝ

/-- The Sharpe value recorded for one direction of one combination: an
empty return series (after `dropna`) records an undefined Sharpe directly,
otherwise `compute_sharpe_ratio` is invoked. -/
noncomputable def sharpe_of (vals : List ℚ) (p : ℕ) (rf : ℝ) : Option ℝ :=
  if vals = [] then none
  else compute_sharpe_ratio (vals.map fun q => (q : ℝ)) p rf

/-- The inner loop body over `investment_periods` for one score: when the
long column is missing the code executes `continue`, which also skips the
short branch below it; when only the short column is missing, the long
entry is still produced. -/
noncomputable def period_entries (df : BFrame) (cohort : List BRow) (score : ℚ) (rf : ℝ)
    (p : ℕ) : List SummaryEntry :=
  if p ∉ df.longCols then []
  else
    let longE : SummaryEntry :=
      ⟨score, p, true, sharpe_of (cohort.filterMap fun r => getLong r p) p rf⟩
    if p ∈ df.shortCols then
      [longE, ⟨score, p, false, sharpe_of (cohort.filterMap fun r => getShort r p) p rf⟩]
    else [longE]

/-- The cohort for one score: `extract_rows_by_score(merged_df, score)` at
the extractor's default tolerance (the orchestrator passes none), then
`score_df[score_df['Year'].isin(backtest_years)]`. -/
def cohort_rows (df : BFrame) (score : ℚ) (backtest_years : List ℤ) :
    Except String (List BRow) :=
  (extract_rows_by_score df score default_tolerance).map fun f =>
    f.rows.filter fun r => decide (r.year ∈ backtest_years)

/-- All summary entries contributed by one score. -/
noncomputable def score_entries (df : BFrame) (backtest_years : List ℤ)
    (investment_periods : List ℕ) (rf : ℝ) (score : ℚ) :
    Except String (List SummaryEntry) :=
  (cohort_rows df score backtest_years).map fun cohort =>
    investment_periods.flatMap (period_entries df cohort score rf)

/-- The pivoted summary, `summary_df.pivot_table(index=['Total_Score'],
columns=['Investment_Period_Weeks', 'Return_Type'], values='Sharpe_Ratio')`.
`index` and `columns` are the key values that survive; `cell` is the
aggregated (mean) value of a cell, `none` for an empty cell. -/
structure PivotTable where
  index : List ℚ
  columns : List (ℕ × Bool)
  cell : ℚ → ℕ × Bool → Option ℝ

noncomputable def meanR (l : List ℝ) : ℝ := l.sum / (l.length : ℝ)

/-- `pandas.pivot_table` with its defaults (`aggfunc='mean'`,
`dropna=True`): entries whose value is `NaN` are dropped before the
unstack, so the surviving index values and column keys are those carrying
at least one defined Sharpe value; a cell with no surviving entry is `NaN`.
(pandas additionally sorts the index and column keys; the model keeps them
in order of first appearance, which none of the stated properties
depend on.)  The flattened column labels `f"{period}_Week_{rtype}"` are
represented by the `(period, isLong)` pairs themselves. -/
noncomputable def pivot_table (sm : List SummaryEntry) : PivotTable :=
  let surv := sm.filter fun e => e.sharpe.isSome
  { index := (surv.map fun e => e.total_score).dedup
    columns := (surv.map fun e => (e.period, e.isLong)).dedup
    cell := fun s c =>
      let vals := (surv.filter fun e =>
        decide (e.total_score = s) && decide ((e.period, e.isLong) = c)).filterMap
        fun e => e.sharpe
      if vals.isEmpty then none else some (meanR vals) }

/-- `Backtesting.backtest_scores`: loop over the configured scores
accumulating `summary_data`, then pivot.  Directory creation, CSV output
and prints are I/O collaborators and are not modelled. -/
noncomputable def backtest_scores (df : BFrame) (scores : List ℚ)
    (investment_periods : List ℕ) (backtest_years : List ℤ) (rf : ℝ) :
    Except String (List SummaryEntry × PivotTable) := do
  let summary ← scores.foldlM (fun acc s => do
    let es ← score_entries df backtest_years investment_periods rf s
    pure (acc ++ es)) []
  pure (summary, pivot_table summary)

/-- Explicit state passing for `backtest_scores`: the merged DataFrame is
only ever read (`extract_rows_by_score` copies its selection; the year
filter, `to_csv` and the pivot all derive new objects), so the state
component comes back unchanged. -/
noncomputable def backtest_scores_state (df : BFrame) (scores : List ℚ)
    (investment_periods : List ℕ) (backtest_years : List ℤ) (rf : ℝ) :
    Except String (List SummaryEntry × PivotTable) × BFrame :=
  (backtest_scores df scores investment_periods backtest_years rf, df)

/-! ### Concrete inputs used to evaluate the statements -/

def exPrice : PriceFrame := ⟨true, [⟨2020, 1, 1⟩, ⟨2020, 2, 0⟩]⟩

def exInv : List FactorRow := [⟨2020, 1, 1, -1⟩]

def exCot : List FactorRow := [⟨2020, 1, 1, 0⟩, ⟨2020, 2, -1, 1⟩]

/-- The cohort of a score as a plain row list (the value wrapped in
`Except.ok` by `cohort_rows` when `Total_Score` exists): default-tolerance
score filter, then the backtest-year filter. -/
def cohort_pure (df : BFrame) (score : ℚ) (backtest_years : List ℤ) : List BRow :=
  (df.rows.filter fun r => decide (abs (r.totalScore - score) ≤ default_tolerance)).filter
    fun r => decide (r.year ∈ backtest_years)

/-- The summary rows of the pivot example: score 2, horizon 1, a Long
Sharpe of 0.5 and an undefined Short Sharpe. -/
noncomputable def exSummary : List SummaryEntry :=
  [⟨2, 1, true, some (1 / 2)⟩, ⟨2, 1, false, none⟩]

/-- A frame whose 1-week short-return column exists while the 1-week
long-return column does not. -/
def exShortOnly : BFrame := ⟨true, [], [1], [⟨2020, 2, [], [(1, some 1)]⟩]⟩

def exRow1 : BRow := ⟨2020, 4, [(1, some 5)], [(1, some 3)]⟩

def exRow2 : BRow := ⟨2019, 2, [(1, none)], [(1, some 1)]⟩

def exFrame : BFrame := ⟨true, [1], [1], [exRow1, exRow2]⟩

/-! ## Theorems -/

theorem long_return_defined (closes : List ℚ) (h t : ℕ) (c fc : ℚ)
    (hc : closes[t]? = some c) (hht : h ≤ t) (hfc : closes[t - h]? = some fc) :
    long_return closes h t = some ((fc - c) / c * 100) := by
  simp [long_return, shiftClose, hc, hht, hfc]

theorem long_return_undefined_newest (closes : List ℚ) (h t : ℕ) (hht : ¬ h ≤ t) :
    long_return closes h t = none := by
  simp [long_return, shiftClose, hht]

theorem short_return_defined (closes : List ℚ) (h t : ℕ) (c prev : ℚ)
    (hc : closes[t]? = some c) (hht : h ≤ t) (hprev : closes[t - h]? = some prev) :
    short_return closes h t = some ((c - prev) / prev * 100) := by
  simp [short_return, pct_change, hc, hht, hprev]

theorem short_return_undefined (closes : List ℚ) (h t : ℕ) (hht : ¬ h ≤ t) :
    short_return closes h t = none := by
  simp [short_return, pct_change, hht]

/-- C1: the claim takes the reference close for the long return at
position `t` and horizon `h` to be the close at position `t + h` (`h`
weeks further back in calendar time), undefined when `t + h` leaves the
series.  The code disagrees: `shift(h)` on the newest-first series reads
position `t - h`.  On closes `[100, 102, 101]` with `h = 1`: the middle
week's long return is `(100 - 102)/102*100`, not `(101 - 102)/102*100`;
the oldest week (`t = 2`, where `t + h` leaves the series) is defined; the
newest week (`t = 0`, where `t + h` exists) is undefined. -/
theorem C1_counterexample :
    long_return [100, 102, 101] 1 1 ≠ some ((101 - 102) / 102 * 100) ∧
    long_return [100, 102, 101] 1 1 = some ((100 - 102) / 102 * 100) ∧
    long_return [100, 102, 101] 1 2 ≠ none ∧
    long_return [100, 102, 101] 1 0 = none := by
  refine ⟨by norm_num [long_return, shiftClose], by norm_num [long_return, shiftClose],
    by simp [long_return, shiftClose], by norm_num [long_return, shiftClose]⟩

/-- C1 (amended): for the merged weekly series ordered from most recent to
oldest, the long return at position `t` for horizon `h` equals
`(reference_close - close[t]) / close[t] * 100` where `reference_close` is
the close at position `t - h`, i.e. the close `h` weeks more recent
(later) in calendar time; it is undefined when `t < h` or when position
`t` itself does not exist.  In particular, for closes `[100, 102, 101]`
and `h = 1`, the middle week's long return is `(100 - 102)/102*100 ≈ -1.96`. -/
theorem C1_long_return_amended (closes : List ℚ) (h t : ℕ) :
    (∀ c fc, closes[t]? = some c → h ≤ t → closes[t - h]? = some fc →
      long_return closes h t = some ((fc - c) / c * 100)) ∧
    (¬ h ≤ t → long_return closes h t = none) ∧
    (closes.length ≤ t → long_return closes h t = none) := by
  refine ⟨fun c fc hc hht hfc => long_return_defined closes h t c fc hc hht hfc,
    fun hht => long_return_undefined_newest closes h t hht, fun hlen => ?_⟩
  simp [long_return, List.getElem?_eq_none hlen]

/-- C1 witness: the amended statement evaluated on the three-week series
at the middle position. -/
theorem C1_long_return_witness :
    long_return [100, 102, 101] 1 1 = some ((100 - 102) / 102 * 100) :=
  (C1_long_return_amended [100, 102, 101] 1 1).1 102 100 rfl
    (by decide) rfl

/-- C2: for the merged weekly series ordered from most recent to oldest,
the short return at position `t` for horizon `h` equals
`(close[t] - close[t-h]) / close[t-h] * 100` where `t - h` is the position
`h` steps more recent; it is undefined (`none`, never zero) when `t - h`
has no valid index or `t` leaves the series, and the backtester's
`dropna` aggregation input contains exactly the defined values.  For
closes `[100, 102, 101]` and `h = 1`, the middle week's short return is
`(102 - 100)/100*100 = 2`. -/
theorem C2_short_return (closes : List ℚ) (h t : ℕ) :
    (∀ c prev, closes[t]? = some c → h ≤ t → closes[t - h]? = some prev →
      short_return closes h t = some ((c - prev) / prev * 100)) ∧
    (¬ h ≤ t → short_return closes h t = none) ∧
    (closes.length ≤ t → short_return closes h t = none) ∧
    (∀ (rows : List BRow) (p : ℕ) (v : ℚ),
      v ∈ rows.filterMap (fun r => getShort r p) ↔
        ∃ r ∈ rows, getShort r p = some v) := by
  refine ⟨fun c prev hc hht hprev => short_return_defined closes h t c prev hc hht hprev,
    fun hht => short_return_undefined closes h t hht, fun hlen => ?_, fun rows p v => ?_⟩
  · simp [short_return, pct_change, List.getElem?_eq_none hlen]
  · simp [List.mem_filterMap]

/-- C2 witness: the short return of the middle week of the three-week
series equals 2 percent. -/
theorem C2_short_return_witness :
    short_return [100, 102, 101] 1 1 = some 2 := by
  have h := (C2_short_return [100, 102, 101] 1 1).1 102 100 rfl
    (by decide) rfl
  rw [h]
  norm_num

/-- C6: for every DataFrame carrying a `Total_Score` column, every target
score and every tolerance, `extract_rows_by_score` returns exactly the
rows with `|Total_Score - score| <= tolerance` (possibly none of them,
without error) and changes no other component of the frame; when the
column is absent it fails with the missing-column error; the branch on the
column flag admits no other outcome. -/
theorem C6_extract_rows_by_score (df : BFrame) (score tolerance : ℚ) :
    (df.hasTotalScore = true →
      ∃ out, extract_rows_by_score df score tolerance = Except.ok out ∧
        out.hasTotalScore = df.hasTotalScore ∧ out.longCols = df.longCols ∧
        out.shortCols = df.shortCols ∧
        ∀ r, r ∈ out.rows ↔ r ∈ df.rows ∧ |r.totalScore - score| ≤ tolerance) ∧
    (df.hasTotalScore = false →
      extract_rows_by_score df score tolerance =
        Except.error "Total_Score column missing") := by
  constructor
  · intro hts
    refine ⟨{ df with
        rows := df.rows.filter
          (fun r => decide (abs (r.totalScore - score) ≤ tolerance)) },
      ?_, rfl, rfl, rfl, ?_⟩
    · simp [extract_rows_by_score, hts, reset_index]
    · intro r
      simp [List.mem_filter]
  · intro hts
    simp [extract_rows_by_score, hts]

/-- C6 witness: the extractor evaluated on a concrete two-row frame. -/
theorem C6_extract_witness :
    ∃ out, extract_rows_by_score exFrame 4 (1 / 100000) = Except.ok out ∧
      out.hasTotalScore = exFrame.hasTotalScore ∧ out.longCols = exFrame.longCols ∧
      out.shortCols = exFrame.shortCols ∧
      ∀ r, r ∈ out.rows ↔ r ∈ exFrame.rows ∧ |r.totalScore - 4| ≤ 1 / 100000 :=
  (C6_extract_rows_by_score exFrame 4 (1 / 100000)).1 rfl

/-- C9: neither `extract_rows_by_score` nor `backtest_scores` modifies the
merged input DataFrame: threading the frame through either call as
explicit state returns it unchanged (the extractor works on a copy of its
selection, and the orchestrator only reads the frame while accumulating
its local summary list). -/
theorem C9_merged_df_unchanged (df : BFrame) (score tolerance : ℚ)
    (scores : List ℚ) (investment_periods : List ℕ) (backtest_years : List ℤ)
    (rf : ℝ) :
    (extract_rows_by_score_state df score tolerance).2 = df ∧
    (backtest_scores_state df scores investment_periods backtest_years rf).2 = df :=
  ⟨rfl, rfl⟩

/-- C10: the orchestrator calls the extractor without a tolerance
argument, so every cohort it saves and evaluates is the default-tolerance
(`1e-5`) extraction restricted to the backtest years. -/
theorem C10_cohort_default_tolerance (df : BFrame) (score : ℚ)
    (backtest_years : List ℤ) (hts : df.hasTotalScore = true) :
    ∃ rows, cohort_rows df score backtest_years = Except.ok rows ∧
      cohort_rows df score backtest_years =
        (extract_rows_by_score df score (1 / 100000)).map
          (fun f => f.rows.filter fun r => decide (r.year ∈ backtest_years)) ∧
      ∀ r, r ∈ rows ↔
        r ∈ df.rows ∧ |r.totalScore - score| ≤ 1 / 100000 ∧ r.year ∈ backtest_years := by
  refine ⟨(df.rows.filter fun r => decide (|r.totalScore - score| ≤ 1 / 100000)).filter
      (fun r => decide (r.year ∈ backtest_years)), ?_, rfl, ?_⟩
  · simp [cohort_rows, extract_rows_by_score, hts, default_tolerance, reset_index,
      Except.map, List.filter_filter]
  · intro r
    simp [List.mem_filter]
    tauto

/-- C10 witness: the cohort of score 4 over the backtest year 2020 on the
concrete two-row frame. -/
theorem C10_cohort_witness :
    ∃ rows, cohort_rows exFrame 4 [2020] = Except.ok rows ∧
      cohort_rows exFrame 4 [2020] =
        (extract_rows_by_score exFrame 4 (1 / 100000)).map
          (fun f => f.rows.filter fun r => decide (r.year ∈ [2020])) ∧
      ∀ r, r ∈ rows ↔
        r ∈ exFrame.rows ∧ |r.totalScore - 4| ≤ 1 / 100000 ∧ r.year ∈ [2020] :=
  C10_cohort_default_tolerance exFrame 4 [2020] rfl

/-- C3: for feeds with unique `(Year, Week_Number)` keys,
`merge_dataframes` keeps exactly one output row per price-feed key (a week
missing from a factor feed is kept, with that feed's two scores
zero-filled, and no week outside the price feed appears), every row's
`Total_Score` is the sum of the five factor scores after the zero-fill,
and a price feed without its `Price Score` column makes the operation fail
with the missing-column error. -/
theorem C3_merge_dataframes (price : PriceFrame) (inventory cot : List FactorRow)
    (hi : (inventory.map factorKey).Nodup) (hc : (cot.map factorKey).Nodup) :
    (price.hasPriceScore = true →
      ∃ out, merge_dataframes price inventory cot = Except.ok out ∧
        out.map (fun r => (r.year, r.week)) = price.rows.map priceKey ∧
        (∀ r ∈ out, r.total_score = r.price_score + r.bullish_bearish +
          r.delta_score + r.absolute_storage + r.delta_inventory) ∧
        (∀ p ∈ price.rows, (∀ i ∈ inventory, factorKey i ≠ priceKey p) →
          ∃ r ∈ out, (r.year, r.week) = priceKey p ∧
            r.absolute_storage = 0 ∧ r.delta_inventory = 0) ∧
        (∀ p ∈ price.rows, (∀ i ∈ cot, factorKey i ≠ priceKey p) →
          ∃ r ∈ out, (r.year, r.week) = priceKey p ∧
            r.bullish_bearish = 0 ∧ r.delta_score = 0)) ∧
    (price.hasPriceScore = false →
      merge_dataframes price inventory cot =
        Except.error "Price Score column not found in Price DataFrame") := by
  have hinv : ensure_unique inventory = inventory := by simp [ensure_unique, hi]
  have hcot : ensure_unique cot = cot := by simp [ensure_unique, hc]
  constructor
  · intro hps
    refine ⟨(left_merge price.rows inventory cot).map fillna_and_total, ?_, ?_, ?_, ?_, ?_⟩
    · simp [merge_dataframes, hps, hinv, hcot]
    · simp [left_merge, fillna_and_total, priceKey, List.map_map, Function.comp]
    · intro r hr
      rw [List.mem_map] at hr
      obtain ⟨m, _, rfl⟩ := hr
      simp [fillna_and_total]
    · intro p hp hnone
      have hfind : inventory.find? (fun r => decide (factorKey r = priceKey p)) = none := by
        rw [List.find?_eq_none]
        intro i him
        simpa using hnone i him
      simp only [left_merge, List.map_map]
      refine ⟨_, List.mem_map_of_mem _ hp, rfl, ?_, ?_⟩
      · simp [Function.comp, fillna_and_total, hfind]
      · simp [Function.comp, fillna_and_total, hfind]
    · intro p hp hnone
      have hfind : cot.find? (fun r => decide (factorKey r = priceKey p)) = none := by
        rw [List.find?_eq_none]
        intro i him
        simpa using hnone i him
      simp only [left_merge, List.map_map]
      refine ⟨_, List.mem_map_of_mem _ hp, rfl, ?_, ?_⟩
      · simp [Function.comp, fillna_and_total, hfind]
      · simp [Function.comp, fillna_and_total, hfind]
  · intro hps
    simp [merge_dataframes, hps]

/-- C3 witness: the merge evaluated on a two-week price feed, an inventory
feed missing the second week and a complete COT feed. -/
theorem C3_merge_witness :
    ∃ out, merge_dataframes exPrice exInv exCot = Except.ok out ∧
      out.map (fun r => (r.year, r.week)) = exPrice.rows.map priceKey ∧
      (∀ r ∈ out, r.total_score = r.price_score + r.bullish_bearish +
        r.delta_score + r.absolute_storage + r.delta_inventory) ∧
      (∀ p ∈ exPrice.rows, (∀ i ∈ exInv, factorKey i ≠ priceKey p) →
        ∃ r ∈ out, (r.year, r.week) = priceKey p ∧
          r.absolute_storage = 0 ∧ r.delta_inventory = 0) ∧
      (∀ p ∈ exPrice.rows, (∀ i ∈ exCot, factorKey i ≠ priceKey p) →
        ∃ r ∈ out, (r.year, r.week) = priceKey p ∧
          r.bullish_bearish = 0 ∧ r.delta_score = 0) :=
  (C3_merge_dataframes exPrice exInv exCot (by decide) (by decide)).1 rfl

lemma excess_eq (returns : List ℝ) (h : ℕ) (r : ℝ) :
    (returns.map fun x => x / 100).map
        (fun x => x - ((1 + r) ^ ((h : ℝ) / 52) - 1)) =
      excessSpec returns h r := by
  simp [excessSpec, rfPeriodSpec, List.map_map, Function.comp]

lemma compute_sharpe_eq (returns : List ℝ) (h : ℕ) (r : ℝ)
    (hn : 2 ≤ returns.length) :
    compute_sharpe_ratio returns h r =
      if stdSpec (excessSpec returns h r) = 0 then none
      else some (sharpeSpec returns h r) := by
  have hlen : ((excessSpec returns h r).length : ℝ) = (returns.length : ℝ) := by
    simp [excessSpec]
  simp only [compute_sharpe_ratio]
  rw [if_neg (by omega), excess_eq returns h r, ← hlen]
  rfl

/-- C4: for every return series of at least two observations (a shorter
series falls under the degenerate cases of C7), every holding period
`h ≥ 1` and every annual risk-free rate, `compute_sharpe_ratio` returns
`(mean_excess / std_excess) * sqrt(52 / h)` — excess returns being the
returns over 100 minus the compounded period rate `(1+r)^(h/52) - 1`,
`mean_excess` their sample mean and `std_excess` their Bessel-corrected
sample standard deviation — and the result is undefined when `std_excess`
is zero. -/
theorem C4_compute_sharpe_ratio (returns : List ℝ) (h : ℕ) (r : ℝ)
    (hn : 2 ≤ returns.length) (_hh : 1 ≤ h) :
    (stdSpec (excessSpec returns h r) ≠ 0 →
      compute_sharpe_ratio returns h r = some (sharpeSpec returns h r)) ∧
    (stdSpec (excessSpec returns h r) = 0 →
      compute_sharpe_ratio returns h r = none) := by
  rw [compute_sharpe_eq returns h r hn]
  constructor <;> intro hstd <;> simp [hstd]

lemma excess_example : excessSpec [0, 100, 200] 52 0 = [0, 1, 2] := by
  simp [excessSpec, rfPeriodSpec]
  norm_num [Real.one_rpow]

lemma std_example : stdSpec [0, 1, 2] = 1 := by
  have hm : meanSpec [0, 1, 2] = 1 := by
    simp [meanSpec]
    norm_num
  simp [stdSpec, hm]
  norm_num [Real.sqrt_one]

/-- C4 witness: the Sharpe formula evaluated on the three-element series
`[0, 100, 200]` percent with a 52-week horizon and zero risk-free rate
(where the Bessel-corrected standard deviation is 1). -/
theorem C4_sharpe_witness :
    compute_sharpe_ratio [0, 100, 200] 52 0 = some (sharpeSpec [0, 100, 200] 52 0) :=
  (C4_compute_sharpe_ratio [0, 100, 200] 52 0 (by norm_num) (by norm_num)).1
    (by rw [excess_example, std_example]; norm_num)

lemma const_dev_sum_zero (ex : List ℝ) (k : ℝ) (n : ℕ) (hlen : ex.length = n)
    (hn : n ≠ 0) (hex : ∀ y ∈ ex, y = k) :
    (ex.map fun x => (x - ex.sum / (n : ℝ)) ^ 2).sum = 0 := by
  have hsum : ex.sum = (n : ℝ) * k := by
    rw [List.sum_eq_card_nsmul ex k hex, hlen, nsmul_eq_mul]
  apply List.sum_eq_zero
  intro y hy
  rw [List.mem_map] at hy
  obtain ⟨z, hz, rfl⟩ := hy
  rw [hex z hz, hsum,
    mul_div_cancel_left₀ k (show ((n : ℕ) : ℝ) ≠ 0 by exact_mod_cast hn)]
  ring

/-- C7: `compute_sharpe_ratio` on an empty series, a single-element series
or an all-identical series yields the undefined marker (pandas mean/std
give `NaN` on the empty and single cases and the zero-variance guard
catches the constant case), never a thrown failure.  In particular
`returns = [2.0]`, horizon 4 weeks, is undefined. -/
theorem C7_sharpe_degenerate (h : ℕ) (r x c : ℝ) (l : List ℝ)
    (hconst : ∀ y ∈ l, y = c) :
    compute_sharpe_ratio [] h r = none ∧
    compute_sharpe_ratio [x] h r = none ∧
    compute_sharpe_ratio l h r = none := by
  refine ⟨by simp [compute_sharpe_ratio], by simp [compute_sharpe_ratio], ?_⟩
  by_cases hl : l.length < 2
  · simp [compute_sharpe_ratio, hl]
  · have hex : ∀ y ∈ (l.map fun z => z / 100).map
        (fun z => z - ((1 + r) ^ ((h : ℝ) / 52) - 1)),
        y = c / 100 - ((1 + r) ^ ((h : ℝ) / 52) - 1) := by
      intro y hy
      simp only [List.mem_map] at hy
      obtain ⟨z, ⟨w, hw, rfl⟩, rfl⟩ := hy
      rw [hconst w hw]
    have hzero := const_dev_sum_zero _ _ l.length (by simp) (by omega) hex
    simp only [compute_sharpe_ratio]
    rw [if_neg hl]
    rw [hzero]
    simp

/-- C7 witness: the empty series, the single series `[2.0]` with horizon 4
(the documented example), and the constant series `[5, 5]` all give an
undefined Sharpe ratio under the default 3 percent rate. -/
theorem C7_sharpe_degenerate_witness :
    compute_sharpe_ratio [] 4 (3 / 100) = none ∧
    compute_sharpe_ratio [2] 4 (3 / 100) = none ∧
    compute_sharpe_ratio [5, 5] 4 (3 / 100) = none :=
  C7_sharpe_degenerate 4 (3 / 100) 2 5 [5, 5] (by simp)

/-- C5 counterexample: the claim promises one column per distinct
(horizon, direction) pair seen in the summary list, here both `(1, Long)`
and `(1, Short)`; but `pivot_table` with its default `dropna=True` drops
the all-undefined `(1, Short)` column entirely, so the produced table has
only the Long column. -/
theorem C5_counterexample :
    (1, false) ∈ exSummary.map (fun e => (e.period, e.isLong)) ∧
    (1, false) ∉ (pivot_table exSummary).columns ∧
    (pivot_table exSummary).columns = [(1, true)] := by
  refine ⟨by simp [exSummary], ?_, ?_⟩
  · simp [pivot_table, exSummary]
  · simp [pivot_table, exSummary]

/-- C5 (amended): the pivoted summary keeps one row per distinct score
carrying at least one defined Sharpe value and one column per distinct
(horizon, direction) pair carrying at least one defined Sharpe value —
combinations all of whose entries are undefined are dropped from the index
and columns rather than kept as undefined markers — and a cell with no
surviving matching entry stays undefined, never zero. -/
theorem C5_pivot_amended (sm : List SummaryEntry) :
    (∀ s : ℚ, s ∈ (pivot_table sm).index ↔
      ∃ e ∈ sm, e.total_score = s ∧ e.sharpe ≠ none) ∧
    (∀ c : ℕ × Bool, c ∈ (pivot_table sm).columns ↔
      ∃ e ∈ sm, (e.period, e.isLong) = c ∧ e.sharpe ≠ none) ∧
    (∀ (s : ℚ) (c : ℕ × Bool),
      (∀ e ∈ sm, e.total_score = s → (e.period, e.isLong) = c → e.sharpe = none) →
      (pivot_table sm).cell s c = none) := by
  refine ⟨?_, ?_, ?_⟩
  · intro s
    simp [pivot_table, List.mem_filter, Option.isSome_iff_ne_none]
    constructor
    · rintro ⟨e, ⟨he, hne⟩, hs⟩
      exact ⟨e, he, hs, hne⟩
    · rintro ⟨e, he, hs, hne⟩
      exact ⟨e, ⟨he, hne⟩, hs⟩
  · intro c
    simp [pivot_table, List.mem_filter, Option.isSome_iff_ne_none]
    constructor
    · rintro ⟨e, ⟨he, hne⟩, hs⟩
      exact ⟨e, he, hs, hne⟩
    · rintro ⟨e, he, hs, hne⟩
      exact ⟨e, ⟨he, hne⟩, hs⟩
  · intro s c hnone
    simp [pivot_table]
    intro x hx h1 h2 _
    exact hnone x hx h1 h2

/-- C5 witness: on the example summary rows, score 2 is a surviving row
and the cell of an absent score stays undefined. -/
theorem C5_pivot_witness :
    (2 : ℚ) ∈ (pivot_table exSummary).index ∧
    (pivot_table exSummary).cell 3 (1, true) = none := by
  have h := C5_pivot_amended exSummary
  constructor
  · exact (h.1 2).mpr ⟨⟨2, 1, true, some (1 / 2)⟩, by simp [exSummary], rfl, by simp⟩
  · refine h.2.2 3 (1, true) ?_
    intro e he h1 h2
    simp only [exSummary, List.mem_cons, List.not_mem_nil, or_false] at he
    rcases he with rfl | rfl
    · exact absurd h1 (by norm_num)
    · rfl

/-- C8 counterexample: on a frame whose 1-week short-return column exists
but whose 1-week long-return column does not, the claim allows only the
(score, 1, Long) combination to be skipped; the code's `continue` skips
the short branch as well, so the summary for score 2 is empty — the
(score 2, horizon 1, Short) combination is silently dropped although its
column is present. -/
theorem C8_counterexample :
    1 ∈ exShortOnly.shortCols ∧ 1 ∉ exShortOnly.longCols ∧
    score_entries exShortOnly [2020] [1] 0 2 = Except.ok [] := by
  refine ⟨by decide, by decide, ?_⟩
  simp [score_entries, cohort_rows, extract_rows_by_score, exShortOnly,
    reset_index, period_entries, Except.map]

lemma period_entries_nil (df : BFrame) (cohort : List BRow) (s : ℚ) (rf : ℝ)
    (p : ℕ) (hl : p ∉ df.longCols) : period_entries df cohort s rf p = [] := by
  simp [period_entries, hl]

lemma period_entries_keys (df : BFrame) (cohort : List BRow) (s : ℚ) (rf : ℝ)
    (p : ℕ) : ∀ e ∈ period_entries df cohort s rf p,
      e.total_score = s ∧ e.period = p := by
  intro e he
  by_cases hl : p ∈ df.longCols
  · by_cases hs : p ∈ df.shortCols
    · simp [period_entries, hl, hs] at he
      rcases he with rfl | rfl <;> exact ⟨rfl, rfl⟩
    · simp [period_entries, hl, hs] at he
      subst he
      exact ⟨rfl, rfl⟩
  · simp [period_entries, hl] at he

lemma period_entries_only_long (df : BFrame) (cohort : List BRow) (s : ℚ)
    (rf : ℝ) (p : ℕ) (hs : p ∉ df.shortCols) :
    ∀ e ∈ period_entries df cohort s rf p, e.isLong = true := by
  intro e he
  by_cases hl : p ∈ df.longCols
  · simp [period_entries, hl, hs] at he
    subst he
    rfl
  · simp [period_entries, hl] at he

lemma period_entries_long_mem (df : BFrame) (cohort : List BRow) (s : ℚ)
    (rf : ℝ) (p : ℕ) (hl : p ∈ df.longCols) :
    SummaryEntry.mk s p true (sharpe_of (cohort.filterMap fun r => getLong r p) p rf) ∈
      period_entries df cohort s rf p := by
  by_cases hs : p ∈ df.shortCols <;> simp [period_entries, hl, hs]

lemma period_entries_short_mem (df : BFrame) (cohort : List BRow) (s : ℚ)
    (rf : ℝ) (p : ℕ) (hl : p ∈ df.longCols) (hs : p ∈ df.shortCols) :
    SummaryEntry.mk s p false (sharpe_of (cohort.filterMap fun r => getShort r p) p rf) ∈
      period_entries df cohort s rf p := by
  simp [period_entries, hl, hs]

lemma score_entries_ok (df : BFrame) (years : List ℤ) (periods : List ℕ)
    (rf : ℝ) (s : ℚ) (hts : df.hasTotalScore = true) :
    score_entries df years periods rf s =
      Except.ok (periods.flatMap (period_entries df (cohort_pure df s years) s rf)) := by
  simp [score_entries, cohort_rows, extract_rows_by_score, hts, reset_index,
    cohort_pure, Except.map]

lemma backtest_scores_ok (df : BFrame) (scores : List ℚ) (periods : List ℕ)
    (years : List ℤ) (rf : ℝ) (hts : df.hasTotalScore = true) :
    backtest_scores df scores periods years rf = Except.ok
      (scores.flatMap fun s =>
        periods.flatMap (period_entries df (cohort_pure df s years) s rf),
       pivot_table (scores.flatMap fun s =>
        periods.flatMap (period_entries df (cohort_pure df s years) s rf))) := by
  have hfold : ∀ (ss : List ℚ) (acc : List SummaryEntry),
      List.foldlM (fun acc s => do
          let es ← score_entries df years periods rf s
          pure (acc ++ es)) acc ss =
        Except.ok (acc ++ ss.flatMap fun s =>
          periods.flatMap (period_entries df (cohort_pure df s years) s rf)) := by
    intro ss
    induction ss with
    | nil =>
      intro acc
      simp only [List.foldlM_nil, List.flatMap_nil, List.append_nil]
      rfl
    | cons s2 rest ih =>
      intro acc
      rw [List.foldlM_cons]
      rw [score_entries_ok df years periods rf s2 hts]
      show List.foldlM _ (acc ++ _) rest = _
      rw [ih (acc ++ periods.flatMap (period_entries df (cohort_pure df s2 years) s2 rf))]
      simp [List.append_assoc]
  have hb : backtest_scores df scores periods years rf =
      (List.foldlM (fun acc s => do
        let es ← score_entries df years periods rf s
        pure (acc ++ es)) ([] : List SummaryEntry) scores) >>= fun summary =>
        pure (summary, pivot_table summary) := rfl
  rw [hb, hfold scores []]
  rfl

/-- C8 (amended): missing return columns never abort the run, and for
every score and horizon: if both return columns exist, both the Long and
the Short combination are recorded; if only the long column is missing,
the `continue` skips both combinations of that horizon (not just the Long
one); if only the short column is missing, exactly the Short combination
is skipped; all other combinations are unaffected. -/
theorem C8_missing_column_skips (df : BFrame) (scores : List ℚ)
    (periods : List ℕ) (backtest_years : List ℤ) (rf : ℝ)
    (hts : df.hasTotalScore = true) :
    ∃ sm pv, backtest_scores df scores periods backtest_years rf = Except.ok (sm, pv) ∧
      ∀ s ∈ scores, ∀ p ∈ periods,
        (p ∈ df.longCols → ∃ v, SummaryEntry.mk s p true v ∈ sm) ∧
        (p ∈ df.longCols → p ∈ df.shortCols → ∃ v, SummaryEntry.mk s p false v ∈ sm) ∧
        (p ∉ df.longCols → ∀ b v, SummaryEntry.mk s p b v ∉ sm) ∧
        (p ∉ df.shortCols → ∀ v, SummaryEntry.mk s p false v ∉ sm) := by
  refine ⟨_, _, backtest_scores_ok df scores periods backtest_years rf hts, ?_⟩
  intro s hs p hp
  refine ⟨?_, ?_, ?_, ?_⟩
  · intro hl
    exact ⟨_, List.mem_flatMap.mpr ⟨s, hs, List.mem_flatMap.mpr
      ⟨p, hp, period_entries_long_mem df (cohort_pure df s backtest_years) s rf p hl⟩⟩⟩
  · intro hl hsc
    exact ⟨_, List.mem_flatMap.mpr ⟨s, hs, List.mem_flatMap.mpr
      ⟨p, hp, period_entries_short_mem df (cohort_pure df s backtest_years) s rf p hl hsc⟩⟩⟩
  · intro hl b v hmem
    rw [List.mem_flatMap] at hmem
    obtain ⟨s2, _, hmem2⟩ := hmem
    rw [List.mem_flatMap] at hmem2
    obtain ⟨p2, _, hmem3⟩ := hmem2
    obtain ⟨h1, h2⟩ := period_entries_keys df _ s2 rf p2 _ hmem3
    simp only [] at h1 h2
    rw [period_entries_nil df _ s2 rf p2 (h2 ▸ hl)] at hmem3
    exact List.not_mem_nil _ hmem3
  · intro hsc v hmem
    rw [List.mem_flatMap] at hmem
    obtain ⟨s2, _, hmem2⟩ := hmem
    rw [List.mem_flatMap] at hmem2
    obtain ⟨p2, _, hmem3⟩ := hmem2
    obtain ⟨h1, h2⟩ := period_entries_keys df _ s2 rf p2 _ hmem3
    simp only [] at h1 h2
    have hbl := period_entries_only_long df _ s2 rf p2 (h2 ▸ hsc) _ hmem3
    exact Bool.false_ne_true hbl

/-- C8 witness: on the concrete frame with both 1-week return columns the
run succeeds and the Short combination of score 4, horizon 1 is recorded. -/
theorem C8_skip_witness :
    ∃ sm pv, backtest_scores exFrame [4] [1] [2020] 0 = Except.ok (sm, pv) ∧
      ∃ v, SummaryEntry.mk 4 1 false v ∈ sm := by
  obtain ⟨sm, pv, hok, hall⟩ := C8_missing_column_skips exFrame [4] [1] [2020] 0 rfl
  exact ⟨sm, pv, hok, (hall 4 (by simp) 1 (by simp)).2.1 (by decide) (by decide)⟩
